import Mathlib

/-!
# CPL1 auction workflow — shallow embedding

A Lean embedding of the auction state machine of `app.py` (routes
`next_player`, `start_next_round`, `mark_sold`, `mark_unsold`,
`restart_auction`, `export_team_excel`) together with the import-time
team-aggregate recomputation of `import_players.py`
(`recalculate_initial_team_stats`).

Modelling conventions:
* The SQLAlchemy tables become Lean lists of structures; `Model.query.get(id)`
  becomes `List.find?` on the id, and an ORM in-place mutation becomes a
  `List.map` that rewrites the row(s) with that id.
* `Player.status` is a string column, but the program only ever writes the
  closed set `'Retained'`, `'Unsold'`, `'Sold'`, `'Round {n} Unsold'`
  (and the dashboard additionally tests for `'Unsold Final'`), so it is
  embedded as the inductive type `Status`; `statusString` records the
  string each constructor denotes, and every string comparison in the code
  is translated through it.
* Flask session keys become the `Session` structure.  `session.get(k, d)`
  reads the field, `session.pop(k)` stores the default again (every later
  read goes through the same default), so popping is embedded as writing
  the default value.
* `random.choice(pool)` is determinised by an extra `pick : Nat` argument:
  the chosen element is `pool[pick % pool.length]`.  Quantifying over
  `pick` ranges over exactly the possible outcomes of `random.choice`.
* Form fields arrive as `Option Int`: `none` stands for a missing or
  non-integer form value (the `int(...)` call raising
  `ValueError`/`TypeError`).
* Money and counters are Python ints, embedded as `Int` (they can go
  negative; no overflow exists to model).
-/

namespace CPL1

/-- The closed set of values the code writes into (or tests against)
the `Player.status` string column. -/
inductive Status where
  | Retained : Status
  | Unsold : Status
  | Sold : Status
  | RoundUnsold : Nat → Status
  | UnsoldFinal : Status
deriving DecidableEq, Repr

/-- The string each `Status` constructor stands for in the database. -/
def statusString : Status → String
  | .Retained => "Retained"
  | .Unsold => "Unsold"
  | .Sold => "Sold"
  | .RoundUnsold n => "Round " ++ toString n ++ " Unsold"
  | .UnsoldFinal => "Unsold Final"

/-- `Player.status.like('Round % Unsold') | (Player.status == 'Unsold Final')`:
the statuses under which a player is parked for a later round. -/
def Status.isParked : Status → Bool
  | .RoundUnsold _ => true
  | .UnsoldFinal => true
  | _ => false

/-- A row of the `player` table.  Modelled from the spec: `models.py` is not
in the repository, so the column list is taken from spec §3 and from how
`app.py` / `import_players.py` read and write the rows.  The float-typed
statistic columns (`overall_sr`, `cpl_2024_sr`, `cpl_2024_average`) are only
ever copied verbatim, never computed with, so their carrier is `Rat`;
columns the embedded operations never touch (`image_filename`,
`overall_bat_avg`, `overall_bowl_avg`) are omitted. -/
structure Player where
  id : Nat
  player_name : String
  is_retained : Bool
  status : Status
  sold_price : Option Int
  team_id : Option Nat
  overall_matches : Int
  overall_runs : Int
  overall_wickets : Int
  overall_sr : Rat
  overall_hs : Int
  cpl_2024_team : Option String
  cpl_2024_innings : Int
  cpl_2024_runs : Int
  cpl_2024_wickets : Int
  cpl_2024_sr : Rat
  cpl_2024_hs : Int
deriving DecidableEq, Repr

/-- A row of the `team` table.  Modelled from the spec: `models.py` is not in
the repository; fields are the ones spec §3 lists and `app.py` /
`import_players.py` use. -/
structure Team where
  id : Nat
  team_name : String
  captain_name : String
  purse : Int
  purse_spent : Int
  slots_remaining : Int
  players_taken_count : Int
deriving DecidableEq, Repr

/-- The Flask session keys the auction routes use.  `session.get(key, default)`
reads a field; `session.pop(key)` is embedded as writing the default back
(the defaults are `False` for the flags, `None` for the pointer, `1` for
the round). -/
structure Session where
  auction_started : Bool
  current_player_id : Option Nat
  auction_round : Nat
  round_complete : Bool
  auction_complete : Bool
  auction_paused : Bool
deriving DecidableEq, Repr

/-- The session state after `logout` / `restart_auction` pop every auction
key: each key reads back as its default. -/
def Session.cleared : Session :=
  { auction_started := false
    current_player_id := none
    auction_round := 1
    round_complete := false
    auction_complete := false
    auction_paused := false }

/-- Database plus session state seen by one admin request. -/
structure AppState where
  players : List Player
  teams : List Team
  sess : Session
deriving DecidableEq, Repr

/-- `Player.query.get(player_id)`. -/
def getPlayer (s : AppState) (player_id : Nat) : Option Player :=
  s.players.find? fun p => p.id == player_id

/-- `Team.query.get(team_id)`; the form value is an `Int`, the primary key a
`Nat`. -/
def getTeam (s : AppState) (team_id : Int) : Option Team :=
  s.teams.find? fun t => (t.id : Int) == team_id

/-- `Player.query.filter_by(status='Unsold', is_retained=False).all()`:
the pool `next_player` draws from. -/
def unsoldPool (s : AppState) : List Player :=
  s.players.filter fun p => p.status == Status.Unsold && !p.is_retained

/-- `Player.query.filter_by(status=f'Round {r} Unsold', is_retained=False)`:
the players parked for the round after `r`. -/
def roundPool (s : AppState) (r : Nat) : List Player :=
  s.players.filter fun p => p.status == Status.RoundUnsold r && !p.is_retained

/-- `random.choice(pool)`, determinised by `pick`. -/
def choosePlayer (pick : Nat) (pool : List Player) (h : pool ≠ []) : Player :=
  pool.get ⟨pick % pool.length, Nat.mod_lt _ (List.length_pos.mpr h)⟩

/-- Route `/next_player` (`next_player` in `app.py`), the spec's `advance()`.
If paused it only redirects.  Otherwise it draws a random player from the
plain-`Unsold` non-retained pool; if that pool is empty it either marks the
round complete (when players are parked under the current round's marker)
or the whole auction complete. -/
def next_player (pick : Nat) (s : AppState) : AppState :=
  if s.sess.auction_paused then s
  else if h : unsoldPool s = [] then
    if 0 < (roundPool s s.sess.auction_round).length then
      { s with sess := { s.sess with
          round_complete := true
          auction_started := false
          current_player_id := none } }
    else
      { s with sess := { s.sess with
          auction_started := false
          auction_complete := true
          current_player_id := none } }
  else
    { s with sess := { s.sess with
        auction_started := true
        current_player_id := some (choosePlayer pick (unsoldPool s) h).id
        round_complete := false
        auction_complete := false } }

/-- The state `start_next_round` commits before redirecting into
`next_player`: every non-retained player parked under the current round's
marker goes back to `Unsold`, the round counter is bumped, `paused` is
cleared, the auction is marked started. -/
def relabeledState (s : AppState) : AppState :=
  { s with
    players := s.players.map fun p =>
      if p.status == Status.RoundUnsold s.sess.auction_round && !p.is_retained then
        { p with status := Status.Unsold }
      else p
    sess := { s.sess with
      auction_round := s.sess.auction_round + 1
      round_complete := false
      auction_started := true
      auction_paused := false } }

/-- Route `/start_next_round` (`start_next_round` in `app.py`).  Refused
unless the session says the round is complete; with no player parked under
the finished round's marker it declares the auction complete; otherwise it
relabels exactly those players back to `Unsold`, bumps the round counter,
clears `paused`, marks the auction started, and redirects into
`next_player`. -/
def start_next_round (pick : Nat) (s : AppState) : AppState :=
  if !s.sess.round_complete then s
  else if (roundPool s s.sess.auction_round).isEmpty then
    { s with sess := { s.sess with
        auction_complete := true
        auction_started := false
        round_complete := false } }
  else
    next_player pick (relabeledState s)

/-- The state the success branch of `mark_sold` commits before redirecting
into `next_player`: the player's row records the sale, the buying team's
four aggregates move together, the current-player pointer is popped. -/
def soldState (s : AppState) (player_id : Nat) (team : Team)
    (sold_price : Int) : AppState :=
  { s with
    players := s.players.map fun p =>
      if p.id == player_id then
        { p with status := Status.Sold
                 sold_price := some sold_price
                 team_id := some team.id }
      else p
    teams := s.teams.map fun t =>
      if t.id == team.id then
        { t with purse := t.purse - sold_price
                 purse_spent := t.purse_spent + sold_price
                 players_taken_count := t.players_taken_count + 1
                 slots_remaining := t.slots_remaining - 1 }
      else t
    sess := { s.sess with current_player_id := none } }

/-- Route `/sold/<player_id>` (`mark_sold` in `app.py`).  Guards, in the
code's order: paused; player exists (`get_or_404`); player is the current
non-retained `Unsold` player of a started auction; the two form fields
parse as ints; team exists (`get_or_404`); team has a slot; team has the
purse.  On success it writes the sale, pops the pointer, and redirects into
`next_player`. -/
def mark_sold (pick : Nat) (s : AppState) (player_id : Nat)
    (team_id_form : Option Int) (sold_price_form : Option Int) : AppState :=
  if s.sess.auction_paused then s
  else
    match getPlayer s player_id with
    | none => s
    | some player =>
      if player.is_retained || player.status != Status.Unsold
          || !s.sess.auction_started
          || s.sess.current_player_id != some player_id then s
      else
        match team_id_form, sold_price_form with
        | some team_id, some sold_price =>
          match getTeam s team_id with
          | none => s
          | some team =>
            if team.slots_remaining ≤ 0 then s
            else if team.purse < sold_price then s
            else next_player pick (soldState s player_id team sold_price)
        | _, _ => s

/-- The state the success branch of `mark_unsold` commits before
redirecting into `next_player`: the player parked under the current
round's marker, the pointer popped. -/
def passState (s : AppState) (player_id : Nat) : AppState :=
  { s with
    players := s.players.map fun p =>
      if p.id == player_id then
        { p with status := Status.RoundUnsold s.sess.auction_round }
      else p
    sess := { s.sess with current_player_id := none } }

/-- Route `/unsold/<player_id>` (`mark_unsold` in `app.py`), the spec's
`pass_player`.  Same identity guards as `mark_sold`; on success it parks the
player under the current round's marker, pops the pointer, and redirects
into `next_player`. -/
def mark_unsold (pick : Nat) (s : AppState) (player_id : Nat) : AppState :=
  if s.sess.auction_paused then s
  else
    match getPlayer s player_id with
    | none => s
    | some player =>
      if player.is_retained || player.status != Status.Unsold
          || !s.sess.auction_started
          || s.sess.current_player_id != some player_id then s
      else next_player pick (passState s player_id)

/-- The retained players credited to team `tid`:
`Player.query.filter_by(team_id=team.id, is_retained=True).all()`. -/
def retainedOf (players : List Player) (tid : Nat) : List Player :=
  players.filter fun p => p.team_id == some tid && p.is_retained

/-- `sum(p.sold_price for p in retained_players if p.sold_price is not None)`. -/
def retainedCost (players : List Player) (tid : Nat) : Int :=
  ((retainedOf players tid).filterMap Player.sold_price).sum

/-- The team-aggregate recomputation shared by `restart_auction` and
`import_players.recalculate_initial_team_stats`: all four aggregate fields
are rebuilt from the team's retained players (`max_slots = 15`, budget
`10000`). -/
def recomputeTeam (players : List Player) (t : Team) : Team :=
  { t with
    players_taken_count := (retainedOf players t.id).length
    slots_remaining := 15 - ((retainedOf players t.id).length : Int)
    purse_spent := retainedCost players t.id
    purse := 10000 - retainedCost players t.id }

/-- The per-player loop of `restart_auction`: a non-retained player goes
back to `Unsold` with price 0 and no team, a retained player is kept. -/
def resetPlayer (p : Player) : Player :=
  if !p.is_retained then
    { p with status := Status.Unsold, sold_price := some 0, team_id := none }
  else p

/-- Route `/restart_auction` (`restart_auction` in `app.py`), POST branch
with a correct password: every non-retained player is returned to
`Unsold` with price 0 and no team, every team's aggregates are recomputed
from its retained players, and all auction session keys are popped. -/
def restart_auction (s : AppState) : AppState :=
  { players := s.players.map resetPlayer
    teams := s.teams.map (recomputeTeam (s.players.map resetPlayer))
    sess := Session.cleared }

/-- `import_players.recalculate_initial_team_stats`: the one-time aggregate
recomputation run after the CSV import (players untouched, session
untouched). -/
def recalculate_initial_team_stats (s : AppState) : AppState :=
  { s with teams := s.teams.map (recomputeTeam s.players) }

/-- One row of the spreadsheet built by `export_team_excel` (the dict
appended to `players_data`). -/
structure ExportRow where
  player_name : String
  status_label : String
  price_points : Int
  overall_matches : Int
  overall_runs : Int
  overall_wickets : Int
  overall_sr : Rat
  overall_hs : Int
  cpl_2024_team : Option String
  cpl_2024_innings : Int
  cpl_2024_runs : Int
  cpl_2024_wickets : Int
  cpl_2024_sr : Rat
  cpl_2024_hs : Int
deriving DecidableEq, Repr

/-- The row `export_team_excel` builds for one roster player. -/
def exportRow (p : Player) : ExportRow :=
  { player_name := p.player_name
    status_label :=
      if p.is_retained then "Retained"
      else if p.status == Status.Sold then "Sold" else "Unsold/Other"
    price_points := p.sold_price.getD 0
    overall_matches := p.overall_matches
    overall_runs := p.overall_runs
    overall_wickets := p.overall_wickets
    overall_sr := p.overall_sr
    overall_hs := p.overall_hs
    cpl_2024_team := p.cpl_2024_team
    cpl_2024_innings := p.cpl_2024_innings
    cpl_2024_runs := p.cpl_2024_runs
    cpl_2024_wickets := p.cpl_2024_wickets
    cpl_2024_sr := p.cpl_2024_sr
    cpl_2024_hs := p.cpl_2024_hs }

/-- `team.players` (the lazy-dynamic relationship): the players whose
`team_id` points at this team, retained ones included. -/
def rosterOf (s : AppState) (tid : Nat) : List Player :=
  s.players.filter fun p => p.team_id == some tid

/-- `order_by(Player.is_retained.desc(), Player.player_name)`:
retained first, then player name ascending. -/
def rosterOrder (p q : Player) : Bool :=
  (p.is_retained && !q.is_retained)
    || (p.is_retained == q.is_retained && decide (p.player_name ≤ q.player_name))

/-- Outcome of `export_team_excel`: team id not found (`get_or_404`), empty
roster (flash "no players to export", no file), or a spreadsheet. -/
inductive ExportResult where
  | notFound : ExportResult
  | nothingToExport : ExportResult
  | file : List ExportRow → ExportResult
deriving DecidableEq, Repr

/-- Route `/export_team_excel/<team_id>` (`export_team_excel` in `app.py`):
one row per roster player, sorted retained-first then by name; an empty
roster yields no file. -/
def export_team_excel (s : AppState) (team_id : Nat) : ExportResult :=
  match s.teams.find? (fun t => t.id == team_id) with
  | none => .notFound
  | some _ =>
    let roster := (rosterOf s team_id).mergeSort rosterOrder
    if roster.isEmpty then .nothingToExport
    else .file (roster.map exportRow)

/-- One admin action of the auction workflow (a POST/GET to the
corresponding route with its form data, the `pick` determinising
`random.choice`). -/
inductive AdminOp where
  | sell : Nat → Nat → Option Int → Option Int → AdminOp
  | passPlayer : Nat → Nat → AdminOp
  | advance : Nat → AdminOp
  | startNextRound : Nat → AdminOp
  | reset : AdminOp
  | recalc : AdminOp
deriving DecidableEq, Repr

/-- Dispatch one admin action. -/
def applyOp (s : AppState) : AdminOp → AppState
  | .sell pick pid tf pf => mark_sold pick s pid tf pf
  | .passPlayer pick pid => mark_unsold pick s pid
  | .advance pick => next_player pick s
  | .startNextRound pick => start_next_round pick s
  | .reset => restart_auction s
  | .recalc => recalculate_initial_team_stats s

/-- Run a sequence of admin actions. -/
def runOps (s : AppState) (ops : List AdminOp) : AppState :=
  ops.foldl applyOp s

/-- The team ledger invariant of spec §8: purse and spend sum to the
initial budget, slots and acquisitions sum to the cap. -/
def TeamInv (t : Team) : Prop :=
  t.purse + t.purse_spent = 10000 ∧
  t.slots_remaining + t.players_taken_count = 15

/-- Every team of the state satisfies the ledger invariant. -/
def teamsInv (s : AppState) : Prop :=
  ∀ t ∈ s.teams, TeamInv t

instance (t : Team) : Decidable (TeamInv t) := by
  unfold TeamInv
  infer_instance

instance (s : AppState) : Decidable (teamsInv s) := by
  unfold teamsInv
  infer_instance

/-- Status discipline of reachable states: retained players are never in
the auction pool nor parked, and the only parked marker in play is the
current round's. -/
def statusInv (s : AppState) : Prop :=
  ∀ p ∈ s.players,
    (p.is_retained = true → p.status.isParked = false ∧ p.status ≠ Status.Unsold) ∧
    (p.status.isParked = true → p.status = Status.RoundUnsold s.sess.auction_round)

instance (s : AppState) : Decidable (statusInv s) := by
  unfold statusInv
  infer_instance

/-! ## Concrete fixtures for witnesses -/

/-- A non-retained player still in the auction pool. -/
def pAlice : Player :=
  { id := 1, player_name := "Alice", is_retained := false
    status := Status.Unsold, sold_price := some 0, team_id := none
    overall_matches := 10, overall_runs := 200, overall_wickets := 5
    overall_sr := 120, overall_hs := 55
    cpl_2024_team := some "Crazy-11", cpl_2024_innings := 8
    cpl_2024_runs := 150, cpl_2024_wickets := 3, cpl_2024_sr := 110
    cpl_2024_hs := 40 }

/-- A retained player of team 1, retained at cost 1000. -/
def pBob : Player :=
  { id := 2, player_name := "Bob", is_retained := true
    status := Status.Retained, sold_price := some 1000, team_id := some 1
    overall_matches := 20, overall_runs := 450, overall_wickets := 12
    overall_sr := 130, overall_hs := 78
    cpl_2024_team := some "Crazy-11", cpl_2024_innings := 10
    cpl_2024_runs := 320, cpl_2024_wickets := 7, cpl_2024_sr := 125
    cpl_2024_hs := 63 }

/-- A retained player of team 1, retained at cost 1500. -/
def pCarol : Player :=
  { id := 3, player_name := "Carol", is_retained := true
    status := Status.Retained, sold_price := some 1500, team_id := some 1
    overall_matches := 15, overall_runs := 380, overall_wickets := 2
    overall_sr := 140, overall_hs := 90
    cpl_2024_team := some "Jolly Players", cpl_2024_innings := 9
    cpl_2024_runs := 270, cpl_2024_wickets := 1, cpl_2024_sr := 135
    cpl_2024_hs := 71 }

/-- A non-retained player parked under round 1's unsold marker. -/
def pDave : Player :=
  { id := 4, player_name := "Dave", is_retained := false
    status := Status.RoundUnsold 1, sold_price := some 0, team_id := none
    overall_matches := 5, overall_runs := 60, overall_wickets := 9
    overall_sr := 95, overall_hs := 22
    cpl_2024_team := none, cpl_2024_innings := 4
    cpl_2024_runs := 30, cpl_2024_wickets := 6, cpl_2024_sr := 80
    cpl_2024_hs := 15 }

/-- A team mid-auction: purse 5000 of 10000 spent, 3 of 15 slots left. -/
def tOne : Team :=
  { id := 1, team_name := "Crazy-11", captain_name := "Nithyaraj"
    purse := 5000, purse_spent := 5000
    slots_remaining := 3, players_taken_count := 12 }

/-- Session of a running auction presenting player 1 in round 1. -/
def runningSess : Session :=
  { auction_started := true, current_player_id := some 1
    auction_round := 1, round_complete := false
    auction_complete := false, auction_paused := false }

/-- A running auction state: player 1 is up, team 1 can bid. -/
def runningSt : AppState :=
  { players := [pAlice, pBob, pCarol], teams := [tOne], sess := runningSess }

/-- The running state with the pause flag set. -/
def pausedSt : AppState :=
  { players := [pAlice, pBob, pCarol], teams := [tOne]
    sess := { runningSess with auction_paused := true } }

/-- Round 1 just finished: no player is plain `Unsold`, Dave is parked
under round 1's marker, the session says `round_complete`. -/
def roundCompleteSt : AppState :=
  { players := [pDave, pBob, pCarol], teams := [tOne]
    sess := { auction_started := false, current_player_id := none
              auction_round := 1, round_complete := true
              auction_complete := false, auction_paused := false } }

/-- The instant before completion is detected: pool empty, Dave parked,
no completion flag set yet. -/
def endOfRoundSt : AppState :=
  { players := [pDave, pBob, pCarol], teams := [tOne]
    sess := { auction_started := true, current_player_id := none
              auction_round := 1, round_complete := false
              auction_complete := false, auction_paused := false } }

/-! ## Support lemmas -/

theorem choosePlayer_mem (pick : Nat) (pool : List Player) (h : pool ≠ []) :
    choosePlayer pick pool h ∈ pool := by
  unfold choosePlayer
  exact List.get_mem pool _ _

theorem mem_unsoldPool {s : AppState} {p : Player} (hp : p ∈ unsoldPool s) :
    p ∈ s.players ∧ p.status = Status.Unsold ∧ p.is_retained = false := by
  have hm := List.mem_filter.mp hp
  have h2 := hm.2
  simp only [Bool.and_eq_true, beq_iff_eq, Bool.not_eq_true'] at h2
  exact ⟨hm.1, h2.1, h2.2⟩

theorem next_player_players (pick : Nat) (s : AppState) :
    (next_player pick s).players = s.players := by
  unfold next_player
  split
  · rfl
  · split
    · split <;> rfl
    · rfl

theorem next_player_teams (pick : Nat) (s : AppState) :
    (next_player pick s).teams = s.teams := by
  unfold next_player
  split
  · rfl
  · split
    · split <;> rfl
    · rfl

theorem next_player_paused (pick : Nat) (s : AppState) :
    (next_player pick s).sess.auction_paused = s.sess.auction_paused := by
  unfold next_player
  split
  · rfl
  · split
    · split <;> rfl
    · rfl

theorem next_player_pointer (pick : Nat) (s : AppState)
    (hpf : s.sess.auction_paused = false) (h : unsoldPool s ≠ []) :
    (next_player pick s).sess.current_player_id =
      some (choosePlayer pick (unsoldPool s) h).id := by
  unfold next_player
  rw [if_neg (by simp [hpf]), dif_neg h]

/-! ## C5 — advance() refuses while paused; otherwise draws from exactly
the non-retained plain-`Unsold` pool -/

/-- C5: `next_player` leaves the state untouched whenever the auction is
paused; otherwise, whenever the plain-`Unsold` non-retained pool is
non-empty, the current-player pointer is set to a member of exactly that
pool (so never a retained player, never one with another status), and
every member of the pool is the choice for some random draw. -/
theorem next_player_spec_C5 (pick : Nat) (s : AppState) :
    (s.sess.auction_paused = true → next_player pick s = s) ∧
    (s.sess.auction_paused = false → unsoldPool s ≠ [] →
      ∃ p ∈ unsoldPool s, p.is_retained = false ∧ p.status = Status.Unsold ∧
        (next_player pick s).sess.current_player_id = some p.id) ∧
    (s.sess.auction_paused = false → ∀ p ∈ unsoldPool s,
      ∃ pk : Nat, (next_player pk s).sess.current_player_id = some p.id) := by
  refine ⟨fun hp => ?_, fun hpf h => ?_, fun hpf p hp => ?_⟩
  · unfold next_player
    rw [if_pos hp]
  · refine ⟨choosePlayer pick (unsoldPool s) h, choosePlayer_mem pick _ h, ?_, ?_, ?_⟩
    · exact (mem_unsoldPool (choosePlayer_mem pick _ h)).2.2
    · exact (mem_unsoldPool (choosePlayer_mem pick _ h)).2.1
    · exact next_player_pointer pick s hpf h
  · have hne : unsoldPool s ≠ [] := List.ne_nil_of_mem hp
    obtain ⟨i, hi⟩ := List.mem_iff_get.mp hp
    refine ⟨i.val, ?_⟩
    rw [next_player_pointer i.val s hpf hne]
    have : choosePlayer i.val (unsoldPool s) hne = p := by
      unfold choosePlayer
      rw [← hi]
      congr 1
      exact Fin.ext (Nat.mod_eq_of_lt i.isLt)
    rw [this]

/-- Witness for C5 at a concrete state: paused refusal on a paused state,
and pool-membership of the drawn player on a one-player running state. -/
theorem next_player_spec_C5_witness :
    (pausedSt.sess.auction_paused = true ∧ next_player 0 pausedSt = pausedSt) ∧
    (runningSt.sess.auction_paused = false ∧ unsoldPool runningSt ≠ [] ∧
      ∃ p ∈ unsoldPool runningSt, p.is_retained = false ∧ p.status = Status.Unsold ∧
        (next_player 0 runningSt).sess.current_player_id = some p.id) :=
  ⟨⟨by decide, (next_player_spec_C5 0 pausedSt).1 (by decide)⟩,
   ⟨by decide, by decide,
    (next_player_spec_C5 0 runningSt).2.1 (by decide) (by decide)⟩⟩

/-! ## Lookup lemmas for the committed sale -/

theorem find?_map_id {α : Type} (f : α → α) (p : α → Bool)
    (hf : ∀ a, p (f a) = p a) (l : List α) :
    (l.map f).find? p = Option.map f (l.find? p) := by
  rw [List.find?_map]
  have hpf : (p ∘ f) = p := funext hf
  rw [hpf]

theorem getPlayer_id {s : AppState} {pid : Nat} {player : Player}
    (hp : getPlayer s pid = some player) : player.id = pid := by
  unfold getPlayer at hp
  have := List.find?_some hp
  simpa using this

theorem getTeam_id {s : AppState} {tid : Int} {team : Team}
    (ht : getTeam s tid = some team) : (team.id : Int) = tid := by
  unfold getTeam at ht
  have := List.find?_some ht
  simpa using this

theorem getTeam_next_player (pick : Nat) (s : AppState) (tid : Int) :
    getTeam (next_player pick s) tid = getTeam s tid := by
  unfold getTeam
  rw [next_player_teams]

theorem getPlayer_next_player (pick : Nat) (s : AppState) (pid : Nat) :
    getPlayer (next_player pick s) pid = getPlayer s pid := by
  unfold getPlayer
  rw [next_player_players]

theorem getTeam_soldState {s : AppState} {team_id : Int} {team : Team}
    (ht : getTeam s team_id = some team)
    (player_id : Nat) (sold_price : Int) :
    getTeam (soldState s player_id team sold_price) team_id =
      some { team with
             purse := team.purse - sold_price
             purse_spent := team.purse_spent + sold_price
             players_taken_count := team.players_taken_count + 1
             slots_remaining := team.slots_remaining - 1 } := by
  unfold getTeam soldState at *
  dsimp only
  rw [find?_map_id _ _ (fun t => by by_cases h : (t.id == team.id) = true <;> simp [h]), ht]
  simp

theorem getPlayer_soldState {s : AppState} {player_id : Nat} {player : Player}
    (hp : getPlayer s player_id = some player)
    (team : Team) (sold_price : Int) :
    getPlayer (soldState s player_id team sold_price) player_id =
      some { player with
             status := Status.Sold
             sold_price := some sold_price
             team_id := some team.id } := by
  have hid : player.id = player_id := getPlayer_id hp
  unfold getPlayer soldState at *
  dsimp only
  rw [find?_map_id _ _ (fun q => by by_cases h : (q.id == player_id) = true <;> simp [h]), hp]
  simp [hid]

/-- Success characterisation of `mark_sold`: with every guard satisfied the
route commits the sale and redirects into `next_player`. -/
theorem mark_sold_success (pick : Nat) (s : AppState) (player_id : Nat)
    (team_id sold_price : Int) (player : Player) (team : Team)
    (hpause : s.sess.auction_paused = false)
    (hp : getPlayer s player_id = some player)
    (hret : player.is_retained = false)
    (hst : player.status = Status.Unsold)
    (hstart : s.sess.auction_started = true)
    (hcur : s.sess.current_player_id = some player_id)
    (ht : getTeam s team_id = some team)
    (hslots : 0 < team.slots_remaining)
    (hpurse : sold_price ≤ team.purse) :
    mark_sold pick s player_id (some team_id) (some sold_price) =
      next_player pick (soldState s player_id team sold_price) := by
  unfold mark_sold
  rw [if_neg (by simp [hpause]), hp]
  simp only [hret, hst, hstart, hcur, bne_self_eq_false, Bool.false_or, Bool.not_true,
    Bool.or_self, Bool.or_false, if_false]
  rw [if_neg (show ¬(false = true) by simp), ht]
  dsimp only
  rw [if_neg (not_le.mpr hslots), if_neg (not_lt.mpr hpurse)]

/-- Success characterisation of `mark_unsold`: with every guard satisfied
the route parks the player and redirects into `next_player`. -/
theorem mark_unsold_success (pick : Nat) (s : AppState) (player_id : Nat)
    (player : Player)
    (hpause : s.sess.auction_paused = false)
    (hp : getPlayer s player_id = some player)
    (hret : player.is_retained = false)
    (hst : player.status = Status.Unsold)
    (hstart : s.sess.auction_started = true)
    (hcur : s.sess.current_player_id = some player_id) :
    mark_unsold pick s player_id = next_player pick (passState s player_id) := by
  unfold mark_unsold
  rw [if_neg (by simp [hpause]), hp]
  simp only [hret, hst, hstart, hcur, bne_self_eq_false, Bool.false_or, Bool.not_true,
    Bool.or_self, Bool.or_false, if_false]
  rw [if_neg (show ¬(false = true) by simp)]

/-! ## C2 — a successful sell moves player and team state by exactly the
sale -/

/-- C2: when the presented player is the current non-retained `Unsold`
player and the team has a free slot and enough purse, `mark_sold` debits
the purse by exactly the price, one slot, credits spend and count by the
same amounts, and leaves the player `Sold` at that price with a reference
to the buying team. -/
theorem mark_sold_spec_C2 (pick : Nat) (s : AppState) (player_id : Nat)
    (team_id sold_price : Int) (player : Player) (team : Team)
    (hpause : s.sess.auction_paused = false)
    (hp : getPlayer s player_id = some player)
    (hret : player.is_retained = false)
    (hst : player.status = Status.Unsold)
    (hstart : s.sess.auction_started = true)
    (hcur : s.sess.current_player_id = some player_id)
    (ht : getTeam s team_id = some team)
    (hslots : 0 < team.slots_remaining)
    (hpurse : sold_price ≤ team.purse) :
    (∃ team',
      getTeam (mark_sold pick s player_id (some team_id) (some sold_price)) team_id
        = some team' ∧
      team'.purse = team.purse - sold_price ∧
      team'.slots_remaining = team.slots_remaining - 1 ∧
      team'.purse_spent = team.purse_spent + sold_price ∧
      team'.players_taken_count = team.players_taken_count + 1) ∧
    (∃ player',
      getPlayer (mark_sold pick s player_id (some team_id) (some sold_price)) player_id
        = some player' ∧
      player'.status = Status.Sold ∧
      player'.sold_price = some sold_price ∧
      player'.team_id = some team.id) := by
  rw [mark_sold_success pick s player_id team_id sold_price player team
    hpause hp hret hst hstart hcur ht hslots hpurse]
  have hT : getTeam (next_player pick (soldState s player_id team sold_price)) team_id
      = some { team with
               purse := team.purse - sold_price
               purse_spent := team.purse_spent + sold_price
               players_taken_count := team.players_taken_count + 1
               slots_remaining := team.slots_remaining - 1 } := by
    rw [getTeam_next_player, getTeam_soldState ht]
  have hP : getPlayer (next_player pick (soldState s player_id team sold_price)) player_id
      = some { player with
               status := Status.Sold
               sold_price := some sold_price
               team_id := some team.id } := by
    rw [getPlayer_next_player, getPlayer_soldState hp]
  exact ⟨⟨_, hT, rfl, rfl, rfl, rfl⟩, ⟨_, hP, rfl, rfl, rfl⟩⟩

/-- Witness for C2, the spec's example: purse 5000 and 3 slots, price 800,
leaving purse 4200 and 2 slots. -/
theorem mark_sold_spec_C2_witness :
    (0 : Int) < tOne.slots_remaining ∧ (800 : Int) ≤ tOne.purse ∧
    tOne.purse - 800 = 4200 ∧ tOne.slots_remaining - 1 = 2 ∧
    ((∃ team',
      getTeam (mark_sold 0 runningSt 1 (some 1) (some 800)) 1 = some team' ∧
      team'.purse = tOne.purse - 800 ∧
      team'.slots_remaining = tOne.slots_remaining - 1 ∧
      team'.purse_spent = tOne.purse_spent + 800 ∧
      team'.players_taken_count = tOne.players_taken_count + 1) ∧
    (∃ player',
      getPlayer (mark_sold 0 runningSt 1 (some 1) (some 800)) 1 = some player' ∧
      player'.status = Status.Sold ∧
      player'.sold_price = some 800 ∧
      player'.team_id = some tOne.id)) :=
  ⟨by decide, by decide, by decide, by decide,
   mark_sold_spec_C2 0 runningSt 1 1 800 pAlice tOne (by decide) (by decide)
     (by decide) (by decide) (by decide) (by decide) (by decide) (by decide)
     (by decide)⟩

/-! ## C3 — rejected sells change nothing -/

/-- C3: a sell with a malformed team or price form value, or against a team
with no free slot or too small a purse, is rejected wholesale: the state
(every player field, every team field, the session) is exactly the input
state. -/
theorem mark_sold_reject_C3 (pick : Nat) (s : AppState) (player_id : Nat)
    (team_id_form sold_price_form : Option Int) :
    (team_id_form = none →
      mark_sold pick s player_id team_id_form sold_price_form = s) ∧
    (sold_price_form = none →
      mark_sold pick s player_id team_id_form sold_price_form = s) ∧
    (∀ team_id sold_price team,
      team_id_form = some team_id → sold_price_form = some sold_price →
      getTeam s team_id = some team →
      team.slots_remaining ≤ 0 ∨ team.purse < sold_price →
      mark_sold pick s player_id team_id_form sold_price_form = s) := by
  refine ⟨fun h1 => ?_, fun h2 => ?_, fun tid pr team h1 h2 hteam hbad => ?_⟩
  · subst h1
    unfold mark_sold
    split
    · rfl
    · split
      · rfl
      · split
        · rfl
        · cases sold_price_form <;> rfl
  · subst h2
    unfold mark_sold
    split
    · rfl
    · split
      · rfl
      · split
        · rfl
        · cases team_id_form <;> rfl
  · subst h1
    subst h2
    unfold mark_sold
    split
    · rfl
    · split
      · rfl
      · split
        · rfl
        · dsimp only
          rw [hteam]
          dsimp only
          by_cases hs : team.slots_remaining ≤ 0
          · rw [if_pos hs]
          · rcases hbad with hbad | hbad
            · exact absurd hbad hs
            · rw [if_neg hs, if_pos hbad]

/-- Witness for C3: price 6000 against a purse of 5000 leaves the running
state untouched. -/
theorem mark_sold_reject_C3_witness :
    getTeam runningSt 1 = some tOne ∧
    (tOne.slots_remaining ≤ 0 ∨ tOne.purse < 6000) ∧
    mark_sold 0 runningSt 1 (some 1) (some 6000) = runningSt :=
  ⟨by decide, by decide,
   (mark_sold_reject_C3 0 runningSt 1 (some 1) (some 6000)).2.2 1 6000 tOne
     rfl rfl (by decide) (by decide)⟩

/-! ## C10 — no positivity check on the price -/

/-- C10: `mark_sold` checks only `purse < price`, never `price ≤ 0`: any
integer price passes once the slot and purse checks do, and a negative
price strictly increases the purse and strictly decreases the spend. -/
theorem mark_sold_negative_price_C10 (pick : Nat) (s : AppState)
    (player_id : Nat) (team_id sold_price : Int) (player : Player) (team : Team)
    (hpause : s.sess.auction_paused = false)
    (hp : getPlayer s player_id = some player)
    (hret : player.is_retained = false)
    (hst : player.status = Status.Unsold)
    (hstart : s.sess.auction_started = true)
    (hcur : s.sess.current_player_id = some player_id)
    (ht : getTeam s team_id = some team)
    (hslots : 0 < team.slots_remaining)
    (hpurse : sold_price ≤ team.purse) :
    (∃ team',
      getTeam (mark_sold pick s player_id (some team_id) (some sold_price)) team_id
        = some team' ∧
      team'.purse = team.purse - sold_price ∧
      team'.purse_spent = team.purse_spent + sold_price ∧
      (sold_price < 0 →
        team.purse < team'.purse ∧ team'.purse_spent < team.purse_spent)) ∧
    (∃ player',
      getPlayer (mark_sold pick s player_id (some team_id) (some sold_price)) player_id
        = some player' ∧
      player'.status = Status.Sold ∧ player'.sold_price = some sold_price) := by
  rw [mark_sold_success pick s player_id team_id sold_price player team
    hpause hp hret hst hstart hcur ht hslots hpurse]
  have hT : getTeam (next_player pick (soldState s player_id team sold_price)) team_id
      = some { team with
               purse := team.purse - sold_price
               purse_spent := team.purse_spent + sold_price
               players_taken_count := team.players_taken_count + 1
               slots_remaining := team.slots_remaining - 1 } := by
    rw [getTeam_next_player, getTeam_soldState ht]
  have hP : getPlayer (next_player pick (soldState s player_id team sold_price)) player_id
      = some { player with
               status := Status.Sold
               sold_price := some sold_price
               team_id := some team.id } := by
    rw [getPlayer_next_player, getPlayer_soldState hp]
  refine ⟨⟨_, hT, rfl, rfl, fun hneg => ⟨?_, ?_⟩⟩, ⟨_, hP, rfl, rfl⟩⟩
  · show team.purse < team.purse - sold_price
    omega
  · show team.purse_spent + sold_price < team.purse_spent
    omega

/-- Witness for C10 at price −500: the sale succeeds and the purse grows
from 5000 to 5500. -/
theorem mark_sold_negative_price_C10_witness :
    (-500 : Int) < 0 ∧ (-500 : Int) ≤ tOne.purse ∧ tOne.purse - (-500) = 5500 ∧
    ((∃ team',
      getTeam (mark_sold 0 runningSt 1 (some 1) (some (-500))) 1 = some team' ∧
      team'.purse = tOne.purse - (-500) ∧
      team'.purse_spent = tOne.purse_spent + (-500) ∧
      ((-500 : Int) < 0 →
        tOne.purse < team'.purse ∧ team'.purse_spent < tOne.purse_spent)) ∧
    (∃ player',
      getPlayer (mark_sold 0 runningSt 1 (some 1) (some (-500))) 1 = some player' ∧
      player'.status = Status.Sold ∧ player'.sold_price = some (-500))) :=
  ⟨by decide, by decide, by decide,
   mark_sold_negative_price_C10 0 runningSt 1 1 (-500) pAlice tOne (by decide)
     (by decide) (by decide) (by decide) (by decide) (by decide) (by decide)
     (by decide) (by decide)⟩

/-! ## C6 — a sell or pass succeeds at most once per pointer assignment -/

theorem mark_sold_stale (pick : Nat) (s : AppState) (pid : Nat)
    (tf pf : Option Int) (q : Player)
    (hq : getPlayer s pid = some q) (hstale : q.status ≠ Status.Unsold) :
    mark_sold pick s pid tf pf = s := by
  have hb : (q.status != Status.Unsold) = true := bne_iff_ne.mpr hstale
  unfold mark_sold
  split
  · rfl
  · rw [hq]
    dsimp only
    rw [if_pos (by simp [hb])]

theorem mark_unsold_stale (pick : Nat) (s : AppState) (pid : Nat) (q : Player)
    (hq : getPlayer s pid = some q) (hstale : q.status ≠ Status.Unsold) :
    mark_unsold pick s pid = s := by
  have hb : (q.status != Status.Unsold) = true := bne_iff_ne.mpr hstale
  unfold mark_unsold
  split
  · rfl
  · rw [hq]
    dsimp only
    rw [if_pos (by simp [hb])]

theorem next_player_pointer_ne (pick : Nat) (s : AppState) (pid : Nat)
    (hptr : s.sess.current_player_id ≠ some pid)
    (h : ∀ q ∈ s.players, q.id = pid → q.status ≠ Status.Unsold) :
    (next_player pick s).sess.current_player_id ≠ some pid := by
  unfold next_player
  split
  · exact hptr
  · split
    · split
      · simp
      · simp
    · intro hc
      simp only [Option.some.injEq] at hc
      have hch := choosePlayer_mem pick (unsoldPool s) (by assumption)
      obtain ⟨hmem, hst, -⟩ := mem_unsoldPool hch
      exact (h _ hmem hc) hst

theorem soldState_no_unsold_at (s : AppState) (pid : Nat) (team : Team)
    (price : Int) :
    ∀ q ∈ (soldState s pid team price).players, q.id = pid →
      q.status ≠ Status.Unsold := by
  intro q hq hid
  unfold soldState at hq
  obtain ⟨p0, hp0, rfl⟩ := List.mem_map.mp hq
  by_cases h0 : (p0.id == pid) = true
  · simp [h0]
  · rw [if_neg h0] at hid ⊢
    exact absurd (beq_iff_eq.mpr hid) h0

theorem passState_no_unsold_at (s : AppState) (pid : Nat) :
    ∀ q ∈ (passState s pid).players, q.id = pid →
      q.status ≠ Status.Unsold := by
  intro q hq hid
  unfold passState at hq
  obtain ⟨p0, hp0, rfl⟩ := List.mem_map.mp hq
  by_cases h0 : (p0.id == pid) = true
  · simp [h0]
  · rw [if_neg h0] at hid ⊢
    exact absurd (beq_iff_eq.mpr hid) h0

theorem getPlayer_passState {s : AppState} {player_id : Nat} {player : Player}
    (hp : getPlayer s player_id = some player) :
    getPlayer (passState s player_id) player_id =
      some { player with status := Status.RoundUnsold s.sess.auction_round } := by
  have hid : player.id = player_id := getPlayer_id hp
  unfold getPlayer passState at *
  dsimp only
  rw [find?_map_id _ _ (fun q => by by_cases h : (q.id == player_id) = true <;> simp [h]), hp]
  simp [hid]

/-- C6: once a sell (or a pass) on the presented player succeeds, the
player's status is no longer `Unsold` and the pointer no longer names it,
so re-submitting the same sell or the same pass is rejected with no state
change. -/
theorem resubmit_stale_C6 (pick : Nat) (s : AppState) (player_id : Nat)
    (team_id sold_price : Int) (player : Player) (team : Team)
    (hpause : s.sess.auction_paused = false)
    (hp : getPlayer s player_id = some player)
    (hret : player.is_retained = false)
    (hst : player.status = Status.Unsold)
    (hstart : s.sess.auction_started = true)
    (hcur : s.sess.current_player_id = some player_id)
    (ht : getTeam s team_id = some team)
    (hslots : 0 < team.slots_remaining)
    (hpurse : sold_price ≤ team.purse) :
    ((∃ q, getPlayer (mark_sold pick s player_id (some team_id) (some sold_price))
          player_id = some q ∧ q.status ≠ Status.Unsold) ∧
      (mark_sold pick s player_id (some team_id) (some sold_price)).sess.current_player_id
        ≠ some player_id ∧
      (∀ pick' tf pf,
        mark_sold pick' (mark_sold pick s player_id (some team_id) (some sold_price))
          player_id tf pf
          = mark_sold pick s player_id (some team_id) (some sold_price)) ∧
      (∀ pick',
        mark_unsold pick' (mark_sold pick s player_id (some team_id) (some sold_price))
          player_id
          = mark_sold pick s player_id (some team_id) (some sold_price))) ∧
    ((∃ q, getPlayer (mark_unsold pick s player_id) player_id = some q ∧
          q.status ≠ Status.Unsold) ∧
      (mark_unsold pick s player_id).sess.current_player_id ≠ some player_id ∧
      (∀ pick' tf pf,
        mark_sold pick' (mark_unsold pick s player_id) player_id tf pf
          = mark_unsold pick s player_id) ∧
      (∀ pick',
        mark_unsold pick' (mark_unsold pick s player_id) player_id
          = mark_unsold pick s player_id)) := by
  have hS := mark_sold_success pick s player_id team_id sold_price player team
    hpause hp hret hst hstart hcur ht hslots hpurse
  have hU := mark_unsold_success pick s player_id player hpause hp hret hst hstart hcur
  have hqS : getPlayer (mark_sold pick s player_id (some team_id) (some sold_price))
      player_id = some { player with
        status := Status.Sold
        sold_price := some sold_price
        team_id := some team.id } := by
    rw [hS, getPlayer_next_player, getPlayer_soldState hp]
  have hqU : getPlayer (mark_unsold pick s player_id) player_id =
      some { player with status := Status.RoundUnsold s.sess.auction_round } := by
    rw [hU, getPlayer_next_player, getPlayer_passState hp]
  refine ⟨⟨⟨_, hqS, by simp⟩, ?_, ?_, ?_⟩, ⟨⟨_, hqU, by simp⟩, ?_, ?_, ?_⟩⟩
  · rw [hS]
    exact next_player_pointer_ne pick _ player_id (by simp [soldState])
      (soldState_no_unsold_at s player_id team sold_price)
  · intro pick' tf pf
    exact mark_sold_stale pick' _ player_id tf pf _ hqS (by simp)
  · intro pick'
    exact mark_unsold_stale pick' _ player_id _ hqS (by simp)
  · rw [hU]
    exact next_player_pointer_ne pick _ player_id (by simp [passState])
      (passState_no_unsold_at s player_id)
  · intro pick' tf pf
    exact mark_sold_stale pick' _ player_id tf pf _ hqU (by simp)
  · intro pick'
    exact mark_unsold_stale pick' _ player_id _ hqU (by simp)

/-- Witness for C6: after selling player 1 for 800, re-submitting the sell
is a no-op, and after passing player 1, re-submitting the pass is a
no-op. -/
theorem resubmit_stale_C6_witness :
    mark_sold 1 (mark_sold 0 runningSt 1 (some 1) (some 800)) 1 (some 1) (some 800)
      = mark_sold 0 runningSt 1 (some 1) (some 800) ∧
    mark_unsold 1 (mark_unsold 0 runningSt 1) 1 = mark_unsold 0 runningSt 1 := by
  have h := resubmit_stale_C6 0 runningSt 1 1 800 pAlice tOne (by decide)
    (by decide) (by decide) (by decide) (by decide) (by decide) (by decide)
    (by decide) (by decide)
  exact ⟨h.1.2.2.1 1 (some 1) (some 800), h.2.2.2.2 1⟩

/-! ## C7 — start_next_round: refusal outside round_complete, full
relabel-and-advance on success -/

/-- C7: `start_next_round` is a no-op unless the session is in
`round_complete`; from `round_complete` with players parked under the
finished round's marker, it relabels exactly the non-retained players
bearing that marker back to `Unsold`, increments the round counter by one,
clears the paused flag, marks the auction running, and immediately invokes
`next_player` on that state. -/
theorem start_next_round_spec_C7 (pick : Nat) (s : AppState) :
    (s.sess.round_complete = false → start_next_round pick s = s) ∧
    (s.sess.round_complete = true → roundPool s s.sess.auction_round ≠ [] →
      start_next_round pick s = next_player pick
        { s with
          players := s.players.map fun p =>
            if p.status == Status.RoundUnsold s.sess.auction_round && !p.is_retained then
              { p with status := Status.Unsold }
            else p
          sess := { s.sess with
            auction_round := s.sess.auction_round + 1
            round_complete := false
            auction_started := true
            auction_paused := false } }) := by
  constructor
  · intro h
    unfold start_next_round
    rw [if_pos (by simp [h])]
  · intro h hne
    unfold start_next_round
    rw [if_neg (by simp [h]), if_neg (by simpa [List.isEmpty_iff] using hne)]
    rfl

/-- Witness for C7 at the end of round 1: Dave is relabeled `Unsold`, the
round counter becomes 2, and `next_player` runs at once. -/
theorem start_next_round_spec_C7_witness :
    roundCompleteSt.sess.round_complete = true ∧
    roundPool roundCompleteSt roundCompleteSt.sess.auction_round ≠ [] ∧
    start_next_round 0 roundCompleteSt = next_player 0
      { roundCompleteSt with
        players := roundCompleteSt.players.map fun p =>
          if p.status == Status.RoundUnsold roundCompleteSt.sess.auction_round
              && !p.is_retained then
            { p with status := Status.Unsold }
          else p
        sess := { roundCompleteSt.sess with
          auction_round := roundCompleteSt.sess.auction_round + 1
          round_complete := false
          auction_started := true
          auction_paused := false } } :=
  ⟨by decide, by decide,
   (start_next_round_spec_C7 0 roundCompleteSt).2 (by decide) (by decide)⟩

/-! ## C4 — round and auction completion conditions -/

theorem unsoldPool_eq_nil_iff (s : AppState) :
    unsoldPool s = [] ↔
      (s.players.countP fun p => p.status == Status.Unsold && !p.is_retained) = 0 := by
  unfold unsoldPool
  rw [List.filter_eq_nil_iff, List.countP_eq_zero]

theorem roundPool_length_eq_parked (s : AppState) (hinv : statusInv s) :
    (roundPool s s.sess.auction_round).length =
      s.players.countP fun p => p.status.isParked := by
  unfold roundPool
  rw [← List.countP_eq_length_filter]
  apply List.countP_congr
  intro p hp
  obtain ⟨h1, h2⟩ := hinv p hp
  by_cases hpk : p.status.isParked = true
  · have hret : p.is_retained = false := by
      cases hb : p.is_retained
      · rfl
      · exact absurd hpk (by simp [(h1 hb).1])
    rw [h2 hpk, hret]
    simp [hpk, h2 hpk, Status.isParked]
  · have hpk' : p.status.isParked = false := by
      cases hb : p.status.isParked
      · rfl
      · exact absurd hb hpk
    rw [hpk']
    simp only [Bool.false_eq_true, iff_false, Bool.and_eq_true, beq_iff_eq,
      Bool.not_eq_true', not_and]
    intro hst
    rw [hst] at hpk'
    exact absurd hpk' (by simp [Status.isParked])

theorem countP_unsold_eq (s : AppState) (hinv : statusInv s) :
    (s.players.countP fun p => p.status == Status.Unsold) =
      s.players.countP fun p => p.status == Status.Unsold && !p.is_retained := by
  apply List.countP_congr
  intro p hp
  by_cases hu : p.status = Status.Unsold
  · have hret : p.is_retained = false := by
      cases hb : p.is_retained
      · rfl
      · exact absurd hu ((hinv p hp).1 hb).2
    simp [hu, hret]
  · simp [hu]

/-- C4: on a state respecting the status discipline (`statusInv`) with
neither completion flag set and the auction not paused, `next_player`
enters `round_complete` exactly when no non-retained player is plain
`Unsold` while some player is parked under a round-marked-unsold status,
and enters `auction_complete` exactly when no player is plain `Unsold`
and no player is parked under any round-marked-unsold status. -/
theorem completion_detection_C4 (pick : Nat) (s : AppState)
    (hinv : statusInv s)
    (hpause : s.sess.auction_paused = false)
    (hrc : s.sess.round_complete = false)
    (hac : s.sess.auction_complete = false) :
    ((next_player pick s).sess.round_complete = true ↔
      ((s.players.countP fun p => p.status == Status.Unsold && !p.is_retained) = 0 ∧
        0 < s.players.countP fun p => p.status.isParked)) ∧
    ((next_player pick s).sess.auction_complete = true ↔
      ((s.players.countP fun p => p.status == Status.Unsold) = 0 ∧
        (s.players.countP fun p => p.status.isParked) = 0)) := by
  have hpar := roundPool_length_eq_parked s hinv
  have hun := countP_unsold_eq s hinv
  unfold next_player
  rw [if_neg (by simp [hpause])]
  by_cases hemp : unsoldPool s = []
  · have hz := (unsoldPool_eq_nil_iff s).mp hemp
    rw [dif_pos hemp]
    by_cases hp : 0 < (roundPool s s.sess.auction_round).length
    · rw [if_pos hp]
      rw [hpar] at hp
      constructor
      · exact iff_of_true rfl ⟨hz, hp⟩
      · exact iff_of_false (by simp [hac])
          (fun hcon => (Nat.pos_iff_ne_zero.mp hp) hcon.2)
    · rw [if_neg hp]
      rw [hpar] at hp
      have hp0 : (s.players.countP fun p => p.status.isParked) = 0 := by omega
      constructor
      · exact iff_of_false (by simp [hrc])
          (fun hcon => (Nat.pos_iff_ne_zero.mp hcon.2) hp0)
      · exact iff_of_true rfl ⟨by rw [hun]; exact hz, hp0⟩
  · rw [dif_neg hemp]
    have hnz := fun h => hemp ((unsoldPool_eq_nil_iff s).mpr h)
    constructor
    · exact iff_of_false (by simp) (fun hcon => hnz hcon.1)
    · exact iff_of_false (by simp)
        (fun hcon => hnz (by rw [← hun]; exact hcon.1))

/-- Witness for C4 at the end of round 1 (Dave parked, pool empty):
`next_player` enters `round_complete` and not `auction_complete`. -/
theorem completion_detection_C4_witness :
    statusInv endOfRoundSt ∧
    (((next_player 0 endOfRoundSt).sess.round_complete = true ↔
      ((endOfRoundSt.players.countP fun p => p.status == Status.Unsold && !p.is_retained) = 0 ∧
        0 < endOfRoundSt.players.countP fun p => p.status.isParked)) ∧
    ((next_player 0 endOfRoundSt).sess.auction_complete = true ↔
      ((endOfRoundSt.players.countP fun p => p.status == Status.Unsold) = 0 ∧
        (endOfRoundSt.players.countP fun p => p.status.isParked) = 0))) :=
  ⟨by decide,
   completion_detection_C4 0 endOfRoundSt (by decide) (by decide) (by decide)
     (by decide)⟩

/-! ## C1 — the team ledger invariant holds after every operation
sequence -/

theorem start_next_round_teams (pick : Nat) (s : AppState) :
    (start_next_round pick s).teams = s.teams := by
  unfold start_next_round
  split
  · rfl
  · split
    · rfl
    · rw [next_player_teams]
      rfl

theorem mark_unsold_teams (pick : Nat) (s : AppState) (pid : Nat) :
    (mark_unsold pick s pid).teams = s.teams := by
  unfold mark_unsold
  split
  · rfl
  · split
    · rfl
    · split
      · rfl
      · rw [next_player_teams]
        rfl

theorem teamsInv_next_player (pick : Nat) (s : AppState) (h : teamsInv s) :
    teamsInv (next_player pick s) := by
  intro t ht
  rw [next_player_teams] at ht
  exact h t ht

theorem teamsInv_soldState (s : AppState) (pid : Nat) (team : Team)
    (price : Int) (h : teamsInv s) : teamsInv (soldState s pid team price) := by
  intro t ht
  unfold soldState at ht
  dsimp only at ht
  obtain ⟨t0, ht0, rfl⟩ := List.mem_map.mp ht
  obtain ⟨h1, h2⟩ := h t0 ht0
  by_cases hb : (t0.id == team.id) = true
  · rw [if_pos hb]
    refine ⟨?_, ?_⟩
    · show t0.purse - price + (t0.purse_spent + price) = 10000
      omega
    · show t0.slots_remaining - 1 + (t0.players_taken_count + 1) = 15
      omega
  · rw [if_neg hb]
    exact ⟨h1, h2⟩

theorem teamsInv_mark_sold (pick : Nat) (s : AppState) (pid : Nat)
    (tf pf : Option Int) (h : teamsInv s) :
    teamsInv (mark_sold pick s pid tf pf) := by
  unfold mark_sold
  split
  · exact h
  · split
    · exact h
    · split
      · exact h
      · split
        · split
          · exact h
          · split
            · exact h
            · split
              · exact h
              · exact teamsInv_next_player _ _ (teamsInv_soldState _ _ _ _ h)
        · exact h

theorem TeamInv_recomputeTeam (players : List Player) (t : Team) :
    TeamInv (recomputeTeam players t) := by
  refine ⟨?_, ?_⟩
  · show 10000 - retainedCost players t.id + retainedCost players t.id = 10000
    omega
  · show 15 - ((retainedOf players t.id).length : Int)
      + ((retainedOf players t.id).length : Int) = 15
    omega

theorem teamsInv_restart (s : AppState) : teamsInv (restart_auction s) := by
  intro t ht
  unfold restart_auction at ht
  dsimp only at ht
  obtain ⟨t0, -, rfl⟩ := List.mem_map.mp ht
  exact TeamInv_recomputeTeam _ t0

theorem teamsInv_recalc (s : AppState) :
    teamsInv (recalculate_initial_team_stats s) := by
  intro t ht
  unfold recalculate_initial_team_stats at ht
  dsimp only at ht
  obtain ⟨t0, -, rfl⟩ := List.mem_map.mp ht
  exact TeamInv_recomputeTeam _ t0

theorem teamsInv_applyOp (s : AppState) (op : AdminOp) (h : teamsInv s) :
    teamsInv (applyOp s op) := by
  cases op with
  | sell pick pid tf pf => exact teamsInv_mark_sold pick s pid tf pf h
  | passPlayer pick pid =>
    intro t ht
    dsimp only [applyOp] at ht
    rw [mark_unsold_teams] at ht
    exact h t ht
  | advance pick => exact teamsInv_next_player pick s h
  | startNextRound pick =>
    intro t ht
    dsimp only [applyOp] at ht
    rw [start_next_round_teams] at ht
    exact h t ht
  | reset => exact teamsInv_restart s
  | recalc => exact teamsInv_recalc s

/-- C1: from any state whose teams satisfy `purse + purse_spent = 10000`
and `slots_remaining + players_taken_count = 15`, every sequence of sells,
passes, advances, round starts, resets and import-time recomputes keeps
both sums; a reset or the import-time recompute (re)establishes the
invariant from any state whatsoever. -/
theorem team_ledger_C1 (s : AppState) (ops : List AdminOp) (hinv : teamsInv s) :
    teamsInv (runOps s ops) ∧
    (∀ s' : AppState, teamsInv (restart_auction s')) ∧
    (∀ s' : AppState, teamsInv (recalculate_initial_team_stats s')) := by
  refine ⟨?_, teamsInv_restart, teamsInv_recalc⟩
  unfold runOps
  induction ops generalizing s with
  | nil => exact hinv
  | cons op rest ih => exact ih _ (teamsInv_applyOp s op hinv)

/-- Witness for C1: a sell for 800 followed by a pass, an advance and a
reset keeps the ledger sums at 10000 and 15. -/
theorem team_ledger_C1_witness :
    teamsInv runningSt ∧
    teamsInv (runOps runningSt
      [AdminOp.sell 0 1 (some 1) (some 800), AdminOp.passPlayer 0 4,
       AdminOp.advance 0, AdminOp.reset]) :=
  ⟨by decide,
   (team_ledger_C1 runningSt
     [AdminOp.sell 0 1 (some 1) (some 800), AdminOp.passPlayer 0 4,
      AdminOp.advance 0, AdminOp.reset] (by decide)).1⟩

/-! ## C8 — reset is idempotent and rebuilds aggregates from retained
players only -/

theorem resetPlayer_idem (p : Player) : resetPlayer (resetPlayer p) = resetPlayer p := by
  unfold resetPlayer
  by_cases hb : p.is_retained = true
  · simp [hb]
  · simp [hb]

theorem map_resetPlayer_idem (l : List Player) :
    (l.map resetPlayer).map resetPlayer = l.map resetPlayer := by
  rw [List.map_map]
  exact List.map_congr_left fun p _ => resetPlayer_idem p

theorem retainedOf_map_resetPlayer (players : List Player) (tid : Nat) :
    retainedOf (players.map resetPlayer) tid = retainedOf players tid := by
  unfold retainedOf
  rw [List.filter_map]
  have hpred : ∀ p ∈ players,
      ((fun p => p.team_id == some tid && p.is_retained) ∘ resetPlayer) p =
        (fun p => p.team_id == some tid && p.is_retained) p := by
    intro p _
    unfold resetPlayer
    by_cases hb : p.is_retained = true
    · simp [hb]
    · simp [hb]
  rw [List.filter_congr hpred]
  have hid : ∀ p ∈ players.filter fun p => p.team_id == some tid && p.is_retained,
      resetPlayer p = p := by
    intro p hp
    have := (List.mem_filter.mp hp).2
    simp only [Bool.and_eq_true] at this
    unfold resetPlayer
    simp [this.2]
  calc (players.filter fun p => p.team_id == some tid && p.is_retained).map resetPlayer
      = (players.filter fun p => p.team_id == some tid && p.is_retained).map id :=
        List.map_congr_left fun p hp => hid p hp
    _ = players.filter fun p => p.team_id == some tid && p.is_retained := List.map_id _

theorem retainedCost_map_resetPlayer (players : List Player) (tid : Nat) :
    retainedCost (players.map resetPlayer) tid = retainedCost players tid := by
  unfold retainedCost
  rw [retainedOf_map_resetPlayer]

theorem recomputeTeam_idem (players : List Player) (t : Team) :
    recomputeTeam players (recomputeTeam players t) = recomputeTeam players t := rfl

/-- C8: resetting twice equals resetting once; after a reset every
non-retained player is `Unsold` with price 0 and no team link, and every
team's four aggregates are rebuilt from the budget 10000, the cap 15 and
the original state's retained players alone. -/
theorem restart_idempotent_C8 (s : AppState) :
    restart_auction (restart_auction s) = restart_auction s ∧
    (∀ p ∈ (restart_auction s).players, p.is_retained = false →
      p.status = Status.Unsold ∧ p.sold_price = some 0 ∧ p.team_id = none) ∧
    (restart_auction s).teams = s.teams.map fun t =>
      { t with
        players_taken_count := ((retainedOf s.players t.id).length : Int)
        slots_remaining := 15 - ((retainedOf s.players t.id).length : Int)
        purse_spent := retainedCost s.players t.id
        purse := 10000 - retainedCost s.players t.id } := by
  refine ⟨?_, ?_, ?_⟩
  · unfold restart_auction
    dsimp only
    rw [map_resetPlayer_idem]
    congr 1
    rw [List.map_map]
    exact List.map_congr_left fun t _ => recomputeTeam_idem _ t
  · intro p hp hret
    unfold restart_auction at hp
    dsimp only at hp
    obtain ⟨p0, -, rfl⟩ := List.mem_map.mp hp
    unfold resetPlayer at hret ⊢
    by_cases hb : p0.is_retained = true
    · rw [if_neg (by simp [hb])] at hret
      exact absurd hb (by simp [hret])
    · rw [if_pos (by simp [hb])]
      exact ⟨rfl, rfl, rfl⟩
  · unfold restart_auction
    dsimp only
    refine List.map_congr_left fun t _ => ?_
    unfold recomputeTeam
    rw [retainedOf_map_resetPlayer, retainedCost_map_resetPlayer]

/-- Witness for C8, the spec's example: budget 10000, cap 15, two retained
players costing 1000 and 1500 give purse 7500, spend 2500, 13 slots, count
2; the double reset equals the single one and Alice is back to `Unsold`. -/
theorem restart_idempotent_C8_witness :
    restart_auction (restart_auction runningSt) = restart_auction runningSt ∧
    (pAlice.is_retained = false ∧
      (pAlice.status = Status.Unsold ∧ pAlice.sold_price = some 0 ∧
        pAlice.team_id = none)) ∧
    (restart_auction runningSt).teams.map Team.purse = [7500] ∧
    (restart_auction runningSt).teams.map Team.purse_spent = [2500] ∧
    (restart_auction runningSt).teams.map Team.slots_remaining = [13] ∧
    (restart_auction runningSt).teams.map Team.players_taken_count = [2] :=
  ⟨(restart_idempotent_C8 runningSt).1,
   ⟨by decide,
    (restart_idempotent_C8 runningSt).2.1 pAlice (by decide) (by decide)⟩,
   by decide, by decide, by decide, by decide⟩

/-! ## C9 — export: one row per roster player, no file for an empty
roster -/

/-- C9: for an existing team, `export_team_excel` yields no file but the
"nothing to export" signal exactly when the roster is empty; otherwise it
yields a file with exactly one row per roster player, each row carrying
that player's name, status label, price, and statistics (`exportRow`). -/
theorem export_spec_C9 (s : AppState) (tid : Nat) (team : Team)
    (h : s.teams.find? (fun t => t.id == tid) = some team) :
    (rosterOf s tid = [] →
      export_team_excel s tid = ExportResult.nothingToExport) ∧
    (rosterOf s tid ≠ [] →
      ∃ rows, export_team_excel s tid = ExportResult.file rows ∧
        rows.length = (rosterOf s tid).length ∧
        (∀ row ∈ rows, ∃ p ∈ rosterOf s tid, row = exportRow p) ∧
        (∀ p ∈ rosterOf s tid, exportRow p ∈ rows)) := by
  constructor
  · intro hnil
    unfold export_team_excel
    rw [h]
    dsimp only
    simp [hnil]
  · intro hne
    have hemp : ¬(((rosterOf s tid).mergeSort rosterOrder).isEmpty = true) := by
      rw [List.isEmpty_iff]
      intro hmm
      apply hne
      have hlen := congrArg List.length hmm
      rw [List.length_mergeSort] at hlen
      exact List.eq_nil_of_length_eq_zero hlen
    unfold export_team_excel
    rw [h]
    dsimp only
    rw [if_neg hemp]
    refine ⟨_, rfl, ?_, ?_, ?_⟩
    · rw [List.length_map, List.length_mergeSort]
    · intro row hrow
      obtain ⟨p, hpmem, rfl⟩ := List.mem_map.mp hrow
      exact ⟨p, List.mem_mergeSort.mp hpmem, rfl⟩
    · intro p hp
      exact List.mem_map_of_mem _ (List.mem_mergeSort.mpr hp)

/-- Witness for C9: team 1's roster holds the two retained players, and
the export is a two-row file matching them. -/
theorem export_spec_C9_witness :
    runningSt.teams.find? (fun t => t.id == 1) = some tOne ∧
    rosterOf runningSt 1 ≠ [] ∧
    (∃ rows, export_team_excel runningSt 1 = ExportResult.file rows ∧
      rows.length = (rosterOf runningSt 1).length ∧
      (∀ row ∈ rows, ∃ p ∈ rosterOf runningSt 1, row = exportRow p) ∧
      (∀ p ∈ rosterOf runningSt 1, exportRow p ∈ rows)) :=
  ⟨by decide, by decide,
   (export_spec_C9 runningSt 1 tOne (by decide)).2 (by decide)⟩

/-! ## The status discipline is a reachability invariant

`statusInv`, assumed by the C4 theorem, is preserved by every auction
operation and (re)established by a reset whenever the retained players'
statuses are sane, so it holds in every state the program can reach. -/

theorem next_player_round (pick : Nat) (s : AppState) :
    (next_player pick s).sess.auction_round = s.sess.auction_round := by
  unfold next_player
  split
  · rfl
  · split
    · split <;> rfl
    · rfl

theorem statusInv_next_player (pick : Nat) (s : AppState) (h : statusInv s) :
    statusInv (next_player pick s) := by
  intro p hp
  rw [next_player_players] at hp
  rw [next_player_round]
  exact h p hp

theorem statusInv_soldState (s : AppState) (pid : Nat) (team : Team)
    (price : Int) (h : statusInv s) : statusInv (soldState s pid team price) := by
  intro q hq
  unfold soldState at hq
  dsimp only at hq
  obtain ⟨p0, hp0, rfl⟩ := List.mem_map.mp hq
  obtain ⟨h1, h2⟩ := h p0 hp0
  by_cases hb : (p0.id == pid) = true
  · rw [if_pos hb]
    constructor
    · intro _
      exact ⟨rfl, by simp⟩
    · intro hpk
      exact absurd hpk (by simp [Status.isParked])
  · rw [if_neg hb]
    exact ⟨h1, h2⟩

theorem statusInv_mark_sold (pick : Nat) (s : AppState) (pid : Nat)
    (tf pf : Option Int) (h : statusInv s) :
    statusInv (mark_sold pick s pid tf pf) := by
  unfold mark_sold
  split
  · exact h
  · split
    · exact h
    · split
      · exact h
      · split
        · split
          · exact h
          · split
            · exact h
            · split
              · exact h
              · exact statusInv_next_player _ _ (statusInv_soldState _ _ _ _ h)
        · exact h

theorem statusInv_passState (s : AppState) (pid : Nat) (player : Player)
    (hnodup : (s.players.map Player.id).Nodup)
    (hp : getPlayer s pid = some player)
    (hret : player.is_retained = false)
    (h : statusInv s) : statusInv (passState s pid) := by
  have hmem : player ∈ s.players := List.mem_of_find?_eq_some hp
  have hpid : player.id = pid := getPlayer_id hp
  intro q hq
  unfold passState at hq
  dsimp only at hq
  obtain ⟨p0, hp0, rfl⟩ := List.mem_map.mp hq
  by_cases hb : (p0.id == pid) = true
  · have heq : p0 = player :=
      List.inj_on_of_nodup_map hnodup hp0 hmem
        (by rw [beq_iff_eq.mp hb, hpid])
    rw [if_pos hb]
    subst heq
    constructor
    · intro hr
      exact absurd hr (by simp [hret])
    · intro _
      rfl
  · rw [if_neg hb]
    exact h p0 hp0

theorem statusInv_mark_unsold (pick : Nat) (s : AppState) (pid : Nat)
    (hnodup : (s.players.map Player.id).Nodup)
    (h : statusInv s) : statusInv (mark_unsold pick s pid) := by
  unfold mark_unsold
  split
  · exact h
  · split
    · exact h
    · split
      · exact h
      · rename_i player heq hguard
        simp only [Bool.or_eq_true, not_or, Bool.not_eq_true] at hguard
        exact statusInv_next_player _ _
          (statusInv_passState s pid player hnodup heq hguard.1.1.1 h)

theorem statusInv_relabeledState (s : AppState) (h : statusInv s) :
    statusInv (relabeledState s) := by
  intro q hq
  unfold relabeledState at hq
  dsimp only at hq
  obtain ⟨p0, hp0, rfl⟩ := List.mem_map.mp hq
  obtain ⟨h1, h2⟩ := h p0 hp0
  by_cases hb : (p0.status == Status.RoundUnsold s.sess.auction_round
      && !p0.is_retained) = true
  · rw [if_pos hb]
    simp only [Bool.and_eq_true, Bool.not_eq_true'] at hb
    constructor
    · intro hr
      exact absurd hr (by simp [hb.2])
    · intro hpk
      exact absurd hpk (by simp [Status.isParked])
  · rw [if_neg hb]
    refine ⟨h1, ?_⟩
    intro hpk
    have hst := h2 hpk
    have hretF : p0.is_retained = false := by
      cases hr : p0.is_retained
      · rfl
      · exact absurd hpk (by simp [(h1 hr).1])
    exact absurd (by simp [hst, hretF]) hb

theorem statusInv_start_next_round (pick : Nat) (s : AppState)
    (h : statusInv s) : statusInv (start_next_round pick s) := by
  unfold start_next_round
  split
  · exact h
  · split
    · intro p hp
      exact h p hp
    · exact statusInv_next_player _ _ (statusInv_relabeledState s h)

theorem statusInv_restart (s : AppState)
    (hr : ∀ p ∈ s.players, p.is_retained = true →
      p.status.isParked = false ∧ p.status ≠ Status.Unsold) :
    statusInv (restart_auction s) := by
  intro q hq
  unfold restart_auction at hq
  dsimp only at hq
  obtain ⟨p0, hp0, rfl⟩ := List.mem_map.mp hq
  unfold resetPlayer
  by_cases hb : p0.is_retained = true
  · rw [if_neg (by simp [hb])]
    refine ⟨fun _ => hr p0 hp0 hb, fun hpk => absurd hpk (by simp [(hr p0 hp0 hb).1])⟩
  · rw [if_pos (by simp [Bool.not_eq_true] at hb ⊢; exact hb)]
    constructor
    · intro hcon
      exact absurd hcon (by simp [hb])
    · intro hpk
      exact absurd hpk (by simp [Status.isParked])

theorem statusInv_recalc (s : AppState) (h : statusInv s) :
    statusInv (recalculate_initial_team_stats s) := by
  intro p hp
  exact h p hp

end CPL1
